import Mathlib

/-!
Shallow embedding of `feedmixer.py` (the FeedMixer fetch/merge pipeline).

Python values of type `FeedParserDict` are modelled as Lean structures whose
optional keys become `Option` fields (`none` = key absent).  Machine-level
details that the code never relies on (thread scheduling, logging, the disk
cache) are abstracted: the outcome of `cache_get` + `feedparser.parse` for a
URL is supplied as a function `String → SourceOutcome`, and the coordinator
collects results in the order of the configured feed list (the code's
`as_completed` order is nondeterministic, and no property below depends on
the collection order).
-/

namespace Feedmixer

/-- The `author_detail` sub-dictionary feedparser attaches to a feed or an
entry: `email`, `name` and `href` keys, each possibly absent. -/
structure AuthorDetail where
  email : Option String
  name  : Option String
  href  : Option String
deriving DecidableEq

/-- The first six fields of a Python `time.struct_time`
(`tm_year, tm_mon, tm_mday, tm_hour, tm_min, tm_sec`); the remaining three
fields are never read by `extract_meta` and are omitted. -/
structure TimeStruct where
  year   : Nat
  month  : Nat
  day    : Nat
  hour   : Nat
  minute : Nat
  second : Nat
deriving DecidableEq

/-- A `datetime.datetime` value as built by `extract_meta`
(`datetime.datetime(year, month, day, hour, minute, second)`). -/
structure PyDateTime where
  year   : Nat
  month  : Nat
  day    : Nat
  hour   : Nat
  minute : Nat
  second : Nat
deriving DecidableEq

/-- The field list of a `PyDateTime`; Python compares `datetime` values
field-lexicographically, which is the lexicographic order on this list. -/
def PyDateTime.toList (d : PyDateTime) : List Nat :=
  [d.year, d.month, d.day, d.hour, d.minute, d.second]

/-- Python `datetime` comparison `a <= b` (field-lexicographic). -/
def PyDateTime.le (a b : PyDateTime) : Prop :=
  a.toList ≤ b.toList

instance (a b : PyDateTime) : Decidable (a.le b) :=
  inferInstanceAs (Decidable (a.toList ≤ b.toList))

/-- One `tags` element of a parsed entry; `tag.get('term')` may be absent. -/
structure Tag where
  term : Option String
deriving DecidableEq

/-- One `enclosures` element of a parsed entry.  `extract_meta` reads the
attributes `href`, `length` and `type` unconditionally, so they are modelled
as mandatory fields (feedparser reports the length as a string). -/
structure Enclosure where
  href   : String
  length : String
  mime   : String
deriving DecidableEq

/-- A `feedgenerator.Enclosure(href, length, mime_type)` value as constructed
by `extract_meta`. -/
structure FGEnclosure where
  href   : String
  length : String
  mime   : String
deriving DecidableEq

/-- One parsed feed entry (a `FeedParserDict` item of `f.entries`).  Every
key is optional (`none` = key absent): feedparser attaches `published` only
when the source entry carries a date element, yet line 242 of the source
reads `e['published']` unconditionally as the sort key, so a missing
`published` key makes the sort raise an uncaught `KeyError` (see
`sortByPublished`). -/
structure Entry where
  title            : Option String
  link             : Option String
  description      : Option String
  author_detail    : Option AuthorDetail
  published        : Option String
  published_parsed : Option TimeStruct
  updated_parsed   : Option TimeStruct
  comments         : Option String
  id               : Option String
  license          : Option String
  tags             : Option (List Tag)
  enclosures       : Option (List Enclosure)
deriving DecidableEq

/-- The result of `feedparser.parse` on a response body: the `bozo` flag,
the optional `bozo_exception` diagnostic, the entry list, and the feed-level
`author_detail` of `f.feed` (absent when `'author_detail' not in f.feed`). -/
structure Feed where
  bozo           : Bool
  bozo_exception : Option String
  entries        : List Entry
  feed_author    : Option AuthorDetail
deriving DecidableEq

/-- What one URL's worker produces before error classification: either
`future.result()` raised a `RequestException` (transport failure), or a
response body was obtained and parsed into a `Feed` (feedparser.parse is
total and never returns `None`). -/
inductive SourceOutcome where
  | fetchFailure (msg : String)
  | response (f : Feed)
deriving DecidableEq

/-- The `FCException` union from the source: a `RequestException` from the
transport layer, or the module's own `ParseError` carrying the
`bozo_exception` diagnostic it was formatted from. -/
inductive FCException where
  | requestException (msg : String)
  | parseError (diag : Option String)
deriving DecidableEq

instance {ε α : Type} [DecidableEq ε] [DecidableEq α] : DecidableEq (Except ε α) :=
  fun x y =>
    match x, y with
    | .ok a, .ok b =>
      if h : a = b then .isTrue (by rw [h]) else .isFalse (fun he => h (Except.ok.inj he))
    | .ok _, .error _ => .isFalse (fun he => Except.noConfusion he)
    | .error _, .ok _ => .isFalse (fun he => Except.noConfusion he)
    | .error a, .error b =>
      if h : a = b then .isTrue (by rw [h]) else .isFalse (fun he => h (Except.error.inj he))

/-- Python slice `l[0:n]` for an `Int` bound `n`: for `n ≥ 0` the first
`n` elements, for `n < 0` everything except the last `|n|` elements
(empty when `|n| ≥ length`). -/
def pySlice (n : Int) (l : List Entry) : List Entry :=
  if 0 ≤ n then l.take n.toNat else l.take (l.length - n.natAbs)

/-- Lines 225-228: `newest = f.entries` when `num_keep == -1`, otherwise
`newest = f.entries[0:num_keep]`. -/
def selectNewest (num_keep : Int) (entries : List Entry) : List Entry :=
  if num_keep = -1 then entries else pySlice num_keep entries

/-- Lines 232-235: inside the loop over `newest`, an entry that lacks the
`author_detail` key receives the feed-level author; an entry that has one is
left untouched. -/
def backfillEntry (a : AuthorDetail) (e : Entry) : Entry :=
  if e.author_detail = none then { e with author_detail := some a } else e

/-- Lines 231-235: the backfill loop runs only when `'author_detail' in
f.feed`; otherwise `newest` is left as is. -/
def backfillAuthor (fa : Option AuthorDetail) (es : List Entry) : List Entry :=
  match fa with
  | none => es
  | some a => es.map (backfillEntry a)

/-- Lines 210-236, the per-URL body of the collection loop: a transport
failure becomes a `requestException`; a parse is judged failed when
`len(f.get('entries')) == 0 and f.get('bozo')`, raising `ParseError` with
the `bozo_exception` diagnostic; otherwise the kept (`selectNewest`) and
author-backfilled entries are returned. -/
def processSource (num_keep : Int) (oc : SourceOutcome) : Except FCException (List Entry) :=
  match oc with
  | .fetchFailure msg => .error (.requestException msg)
  | .response f =>
    if f.entries.length = 0 ∧ f.bozo = true then
      .error (.parseError f.bozo_exception)
    else
      .ok (backfillAuthor f.feed_author (selectNewest num_keep f.entries))

/-- Whether a source's worker ends in the `except` branch (line 237). -/
def sourceFails (num_keep : Int) (oc : SourceOutcome) : Bool :=
  match processSource num_keep oc with
  | .ok _ => false
  | .error _ => true

/-- Whether a per-URL result is the module's own `ParseError` (as opposed to
a transport `RequestException` or a success). -/
def isParseError : Except FCException (List Entry) → Bool
  | .error (.parseError _) => true
  | _ => false

/-- The entries a source contributes to `parsed_entries` (line 236): its
processed entries on success, nothing on failure. -/
def sourceEntries (num_keep : Int) (oc : SourceOutcome) : List Entry :=
  match processSource num_keep oc with
  | .ok es => es
  | .error _ => []

/-- Line 238: each failing URL is recorded with its exception in
`self._error_urls` (rebuilt from `{}` at line 204 on every run). -/
def fetchErrors (num_keep : Int) (feeds : List String) (oc : String → SourceOutcome) :
    List (String × FCException) :=
  feeds.filterMap fun u =>
    match processSource num_keep (oc u) with
    | .ok _ => none
    | .error e => some (u, e)

/-- Order on optional sort keys (a `published` string's character list, or
`none` for an absent key).  On present keys it is Python's code-point
lexicographic string comparison.  The `none` branches are arbitrary (absent
keys sort lowest): they are never observable, because `sortByPublished`
refuses to produce a result when any key is absent — Python raises there
instead of comparing. -/
def keyLE : Option (List Char) → Option (List Char) → Prop
  | none, _ => True
  | some _, none => False
  | some x, some y => x ≤ y

instance : ∀ x y : Option (List Char), Decidable (keyLE x y)
  | none, _ => .isTrue trivial
  | some _, none => .isFalse (fun h => h)
  | some x, some y => inferInstanceAs (Decidable (x ≤ y))

lemma keyLE_total (x y : Option (List Char)) : keyLE x y ∨ keyLE y x := by
  cases x with
  | none => exact Or.inl trivial
  | some a =>
    cases y with
    | none => exact Or.inr trivial
    | some b => exact le_total a b

lemma keyLE_trans (x y z : Option (List Char)) (h1 : keyLE x y)
    (h2 : keyLE y z) : keyLE x z := by
  cases x with
  | none => exact trivial
  | some a =>
    cases y with
    | none => exact h1.elim
    | some b =>
      cases z with
      | none => exact h2.elim
      | some c => exact le_trans h1 h2

/-- The comparison under which line 242 orders entries:
`parsed_entries.sort(key=lambda e: e['published'], reverse=True)` puts `a`
no later than `b` exactly when `a`'s raw `published` string is at least
`b`'s in Python's code-point lexicographic string order (the lexicographic
order on the character list). -/
def entryGE (a b : Entry) : Prop :=
  keyLE (b.published.map String.data) (a.published.map String.data)

instance : DecidableRel entryGE := fun a b =>
  inferInstanceAs (Decidable (keyLE (b.published.map String.data)
    (a.published.map String.data)))

instance : IsTotal Entry entryGE :=
  ⟨fun a b => keyLE_total (b.published.map String.data) (a.published.map String.data)⟩

instance : IsTrans Entry entryGE :=
  ⟨fun _ _ _ h1 h2 => keyLE_trans _ _ _ h2 h1⟩

/-- Line 242.  `list.sort(key=...)` first evaluates the key `e['published']`
for every element; an entry without the key raises `KeyError`, which
nothing catches (the `try/except` at lines 210-239 wraps only the per-URL
loop body), aborting the whole `__fetch_entries` run — modelled as `none`.
When every key is present, Python's stable sort with `reverse=True`
produces the unique permutation that is non-increasing in the key and
keeps elements with equal keys in their original order;
`List.insertionSort` with `entryGE` (which holds on ties) is exactly that
stable sort. -/
def sortByPublished (l : List Entry) : Option (List Entry) :=
  if l.all (fun e => e.published.isSome) then
    some (List.insertionSort entryGE l)
  else
    none

/-- The normalized output record built by `extract_meta` for one entry.
A dictionary key that is only conditionally written (`author_email`,
`author_name`, `author_link`, `pubdate`, `updateddate`, `categories`,
`enclosures`) is an `Option` field whose `none` means "key absent"; the
author keys store the (possibly `None`) dictionary value, hence the nested
`Option`.  `comments`, `unique_id` and `item_copyright` are always written,
with a possibly-`None` value. -/
structure NormalizedRecord where
  title          : String
  link           : String
  description    : String
  author_email   : Option (Option String)
  author_name    : Option (Option String)
  author_link    : Option (Option String)
  pubdate        : Option PyDateTime
  updateddate    : Option PyDateTime
  comments       : Option String
  unique_id      : Option String
  item_copyright : Option String
  categories     : Option (List (Option String))
  enclosures     : Option (List FGEnclosure)
deriving DecidableEq

/-- Lines 273-279: `datetime.datetime(*tp[:5] + (min(tp[5], 59),))` — the
first five calendar fields are taken as is and the seconds field is clamped
to at most 59 (so a leap-second value of 60 becomes 59). -/
def toDatetime (t : TimeStruct) : PyDateTime :=
  ⟨t.year, t.month, t.day, t.hour, t.minute, min t.second 59⟩

/-- Lines 256-295, the body of the `extract_meta` loop for one entry. -/
def extractOne (e : Entry) : NormalizedRecord where
  title := e.title.getD ""
  link := e.link.getD ""
  description := e.description.getD ""
  author_email := e.author_detail.map (fun d => d.email)
  author_name := e.author_detail.map (fun d => d.name)
  author_link := e.author_detail.map (fun d => d.href)
  pubdate := e.published_parsed.map toDatetime
  updateddate := e.updated_parsed.map toDatetime
  comments := e.comments
  unique_id := e.id
  item_copyright := e.license
  categories := e.tags.map (fun ts => ts.map (fun t => t.term))
  enclosures := e.enclosures.map (fun es => es.map (fun enc => ⟨enc.href, enc.length, enc.mime⟩))

/-- Lines 248-296: `extract_meta` starts from an empty list and appends the
metadata record of each entry in order. -/
def extract_meta (parsed_entries : List Entry) : List NormalizedRecord :=
  parsed_entries.foldl (fun acc e => acc ++ [extractOne e]) []

/-- The `parsed_entries` list as collected by the loop (lines 203-236),
before the sort: each configured URL contributes its `sourceEntries`. -/
def collectedEntries (num_keep : Int) (feeds : List String)
    (oc : String → SourceOutcome) : List Entry :=
  (feeds.map (fun u => sourceEntries num_keep (oc u))).flatten

/-- The `parsed_entries` value after line 242: the collected entries sorted
by the raw `published` string, descending; `none` when some collected
entry lacks the `published` key and the sort raises `KeyError`. -/
def fetchEntriesParsed (num_keep : Int) (feeds : List String)
    (oc : String → SourceOutcome) : Option (List Entry) :=
  sortByPublished (collectedEntries num_keep feeds oc)

/-- Lines 196-246, `__fetch_entries` as a function of the configuration and
the per-URL outcomes: the normalized merged entry list (`none` when the
run aborts with the line-242 `KeyError`) together with the freshly rebuilt
error map (as an association list keyed by URL; it is assigned at line 204
and filled at line 238, before the sort, so it is rebuilt even on an
aborted run). -/
def fetchEntries (num_keep : Int) (feeds : List String)
    (oc : String → SourceOutcome) :
    Option (List NormalizedRecord) × List (String × FCException) :=
  ((fetchEntriesParsed num_keep feeds oc).map extract_meta,
   fetchErrors num_keep feeds oc)

/-- The mutable state of one `FeedMixer` instance: the configuration fields
and the `_mixed_entries` / `_error_urls` caches.  Fields are named after the
public properties (`_feeds` is `feeds`, and so on); the cache handle and
thread-pool size play no role in the modelled behaviour. -/
structure FMState where
  title         : String
  link          : String
  desc          : String
  max_feeds     : Nat
  num_keep      : Int
  feeds         : List String
  mixed_entries : List NormalizedRecord
  error_urls    : List (String × FCException)
deriving DecidableEq

/-- Lines 84-119, `__init__`: the feed list is truncated to `max_feeds`
(Python `feeds[:max_feeds]`), and both caches start empty; nothing is
fetched at construction time. -/
def FMState.init (title link desc : String) (feeds : List String)
    (num_keep : Int) (max_feeds : Nat) : FMState :=
  { title := title, link := link, desc := desc, max_feeds := max_feeds,
    num_keep := num_keep, feeds := feeds.take max_feeds,
    mixed_entries := [], error_urls := [] }

/-- Lines 161-167, the `feeds` setter: store `value[:max_feeds]` and reset
`_mixed_entries` to the empty list.  It is a pure state update: it never
invokes `__fetch_entries` (in particular `_error_urls` is untouched). -/
def set_feeds (s : FMState) (value : List String) : FMState :=
  { s with feeds := value.take s.max_feeds, mixed_entries := [] }

/-- Lines 129-132, the `num_keep` setter: store the value, then reassign
`self.feeds = self._feeds`, which goes through the `feeds` setter and so
resets `_mixed_entries`; no fetch is triggered. -/
def set_num_keep (s : FMState) (value : Int) : FMState :=
  set_feeds { s with num_keep := value } s.feeds

/-- Reassigning the plain attribute `title` (line 107 makes it an ordinary
instance attribute with no setter logic). -/
def set_title (s : FMState) (value : String) : FMState :=
  { s with title := value }

/-- Lines 134-143, the `mixed_entries` property: when `len(_mixed_entries)
< 1` it runs `__fetch_entries` and otherwise returns the cache unchanged.
On a completing run the merged list and the rebuilt error map are stored;
on a run aborted by the line-242 `KeyError` (first component `none`,
modelling the exception propagating to the caller) `_error_urls` has
already been rebuilt but `_mixed_entries` (line 246) is never assigned.
The third component is instrumentation recording whether `__fetch_entries`
ran on this access. -/
def getMixedEntries (s : FMState) (oc : String → SourceOutcome) :
    Option (List NormalizedRecord) × FMState × Bool :=
  if s.mixed_entries.length < 1 then
    let r := fetchEntries s.num_keep s.feeds oc
    let s' := match r.1 with
      | some m => { s with mixed_entries := m, error_urls := r.2 }
      | none => { s with error_urls := r.2 }
    (r.1, s', true)
  else
    (some s.mixed_entries, s, false)

/-- Boolean check of the spec's ordering claim on the final merged list:
every adjacent pair whose records both carry a publication timestamp has
the first timestamp greater than or equal to the second. -/
def pubdateSortedB : List NormalizedRecord → Bool
  | [] => true
  | [_] => true
  | a :: b :: rest =>
    (match a.pubdate, b.pubdate with
     | some x, some y => decide (PyDateTime.le y x)
     | _, _ => true) && pubdateSortedB (b :: rest)

/-- An entry with every optional key absent (in particular no `published`
key), used as a concrete test input. -/
def trivEntry : Entry :=
  { title := none, link := none, description := none, author_detail := none,
    published := none, published_parsed := none, updated_parsed := none,
    comments := none, id := none, license := none, tags := none,
    enclosures := none }

/-- A concrete entry whose raw `published` string is lexicographically
large ("b") but whose parsed publication timestamp is the older one. -/
def entryStrHi : Entry :=
  { trivEntry with published := some "b",
                   published_parsed := some ⟨2020, 1, 1, 0, 0, 0⟩ }

/-- A concrete entry whose raw `published` string is lexicographically
small ("a") but whose parsed publication timestamp is the newer one. -/
def entryStrLo : Entry :=
  { trivEntry with published := some "a",
                   published_parsed := some ⟨2021, 1, 1, 0, 0, 0⟩ }

/-- A source that neither transport-fails nor parse-fails, yet whose single
well-formed entry lacks the `published` key. -/
def ocNoPublished : String → SourceOutcome := fun _ =>
  .response { bozo := false, bozo_exception := none,
              entries := [trivEntry], feed_author := none }

/-- A well-formed single-source outcome whose two entries have raw
`published` strings ordered oppositely to their parsed timestamps. -/
def ocMismatch : String → SourceOutcome := fun _ =>
  .response { bozo := false, bozo_exception := none,
              entries := [entryStrHi, entryStrLo], feed_author := none }

/-- An outcome function under which every URL suffers a transport
failure. -/
def ocAllFail : String → SourceOutcome := fun _ =>
  .fetchFailure "connection refused"

/-- A parse result with zero entries and the `bozo` flag clear: a valid
empty feed. -/
def emptyOkFeed : Feed :=
  { bozo := false, bozo_exception := none, entries := [], feed_author := none }

/-- A parse result with zero entries and the `bozo` flag set: a fatal
parse failure. -/
def bozoEmptyFeed : Feed :=
  { bozo := true, bozo_exception := some "not well-formed (invalid token)",
    entries := [], feed_author := none }

/-- A concrete mixer state over one URL, as produced by the constructor. -/
def stateOneFeed : FMState :=
  FMState.init "Title" "" "" ["http://a.example/feed"] 3 100

/-- A concrete feed-level author. -/
def authFeed : AuthorDetail :=
  { email := some "alice@example.com", name := some "Alice", href := none }

/-- A concrete entry-level author, distinct from `authFeed`. -/
def authEntry : AuthorDetail :=
  { email := none, name := some "Bob", href := some "http://b.example" }

/-- A concrete entry that already carries its own author. -/
def entryAuthored : Entry :=
  { trivEntry with author_detail := some authEntry }

/-- A concrete entry with every optional key present, whose published
timestamp carries a leap-second value of 60 in the seconds field. -/
def fullEntry : Entry :=
  { title := some "T", link := some "http://t.example/1", description := some "D",
    author_detail := some authEntry, published := some "2020-01-02T03:04:60Z",
    published_parsed := some ⟨2020, 1, 2, 3, 4, 60⟩, updated_parsed := none,
    comments := some "http://t.example/1/comments", id := some "urn:1",
    license := some "CC-BY", tags := some [{ term := some "news" }],
    enclosures := some [{ href := "http://t.example/1.mp3", length := "123",
                          mime := "audio/mpeg" }] }

/-- A concrete mixer state whose entry cache is already populated with one
record. -/
def statePopulated : FMState :=
  { stateOneFeed with mixed_entries := [extractOne trivEntry] }

/-!
Helper lemmas shared by the claim theorems.
-/

lemma extract_meta_foldl (es : List Entry) (acc : List NormalizedRecord) :
    es.foldl (fun acc e => acc ++ [extractOne e]) acc = acc ++ es.map extractOne := by
  induction es generalizing acc with
  | nil => simp
  | cons h t ih => simp [List.foldl, ih]

lemma extract_meta_eq_map (es : List Entry) :
    extract_meta es = es.map extractOne := by
  simpa using extract_meta_foldl es []

lemma flatten_nil_of_all_fail (num_keep : Int) (oc : String → SourceOutcome) :
    ∀ fs : List String, (∀ u ∈ fs, sourceFails num_keep (oc u) = true) →
      (fs.map fun u => sourceEntries num_keep (oc u)).flatten = [] := by
  intro fs
  induction fs with
  | nil => intro _; rfl
  | cons a t ih =>
    intro hall
    rw [List.map_cons, List.flatten_cons]
    have ha : sourceEntries num_keep (oc a) = [] := by
      have := hall a (by simp)
      unfold sourceEntries
      unfold sourceFails at this
      cases hps : processSource num_keep (oc a) with
      | ok es => rw [hps] at this; simp at this
      | error e => rfl
    rw [ha, List.nil_append]
    exact ih (fun u hu => hall u (by simp [hu]))

lemma sourceEntries_nil_of_fails (num_keep : Int) (oc : SourceOutcome)
    (h : sourceFails num_keep oc = true) : sourceEntries num_keep oc = [] := by
  unfold sourceEntries
  unfold sourceFails at h
  cases hps : processSource num_keep oc with
  | ok es => rw [hps] at h; simp at h
  | error e => rfl

/-!
Claim theorems.
-/

/-- Claim C1 as stated is false on the code: the pipeline does not always
complete.  At this concrete input a single source succeeds (it neither
transport-fails nor parse-fails, so the error map stays empty) but its one
well-formed entry lacks the `published` key; the sort key access
`e['published']` at line 242 then raises a `KeyError` that the per-URL
`try/except` does not cover, and the `mixed_entries` access aborts instead
of returning a merged list. -/
theorem pipeline_aborts_on_missing_published :
    sourceFails 3 (ocNoPublished "u") = false
    ∧ (fetchEntries 3 ["u"] ocNoPublished).2 = []
    ∧ (fetchEntries 3 ["u"] ocNoPublished).1 = none := by
  refine ⟨?_, ?_, ?_⟩ <;> decide

/-- Claim C1 (amended): each per-source transport or parse failure is
non-fatal — the failing URL is recorded in the error map and the source
contributes zero entries — and the run completes whenever every collected
entry carries a `published` key; in particular when every configured
source fails, no entry is collected, so the run completes with an empty
merged list and every configured URL in the error map.  (Only a
successfully parsed entry lacking the `published` key aborts the run, via
the uncovered line-242 `KeyError`.) -/
theorem fetch_failures_isolated (num_keep : Int) (feeds : List String)
    (oc : String → SourceOutcome) :
    (∀ u ∈ feeds, sourceFails num_keep (oc u) = true →
       u ∈ (fetchErrors num_keep feeds oc).map Prod.fst)
    ∧ (∀ u, sourceFails num_keep (oc u) = true →
       sourceEntries num_keep (oc u) = [])
    ∧ ((∀ e ∈ collectedEntries num_keep feeds oc, e.published.isSome = true) →
       (fetchEntries num_keep feeds oc).1.isSome = true)
    ∧ ((∀ u ∈ feeds, sourceFails num_keep (oc u) = true) →
       (fetchEntries num_keep feeds oc).1 = some []
       ∧ ∀ u ∈ feeds, u ∈ (fetchEntries num_keep feeds oc).2.map Prod.fst) := by
  have hA : ∀ u ∈ feeds, sourceFails num_keep (oc u) = true →
      u ∈ (fetchErrors num_keep feeds oc).map Prod.fst := by
    intro u hu hf
    unfold sourceFails at hf
    cases hps : processSource num_keep (oc u) with
    | ok es => rw [hps] at hf; simp at hf
    | error e =>
      refine List.mem_map.mpr ⟨(u, e), ?_, rfl⟩
      refine List.mem_filterMap.mpr ⟨u, hu, ?_⟩
      simp [hps]
  refine ⟨hA, fun u => sourceEntries_nil_of_fails num_keep (oc u), ?_,
    fun hall => ⟨?_, ?_⟩⟩
  · intro hkeys
    have hguard : (collectedEntries num_keep feeds oc).all
        (fun e => e.published.isSome) = true :=
      List.all_eq_true.mpr hkeys
    simp [fetchEntries, fetchEntriesParsed, sortByPublished, hguard]
  · have hflat : collectedEntries num_keep feeds oc = [] :=
      flatten_nil_of_all_fail num_keep oc feeds hall
    calc (fetchEntries num_keep feeds oc).1
        = (sortByPublished (collectedEntries num_keep feeds oc)).map extract_meta := rfl
      _ = (sortByPublished []).map extract_meta := by rw [hflat]
      _ = some [] := rfl
  · intro u hu
    exact hA u hu (hall u hu)

/-- Witness for the amended C1 at a concrete all-failing configuration. -/
theorem fetch_failures_isolated_witness :
    (fetchEntries 3 ["a", "b"] ocAllFail).1 = some []
    ∧ "a" ∈ (fetchEntries 3 ["a", "b"] ocAllFail).2.map Prod.fst := by
  have h := fetch_failures_isolated 3 ["a", "b"] ocAllFail
  have hall : ∀ u ∈ ["a", "b"], sourceFails 3 (ocAllFail u) = true := by decide
  exact ⟨(h.2.2.2 hall).1, (h.2.2.2 hall).2 "a" (by decide)⟩

/-- Claim C2 as stated is false on the code: line 242 sorts by the raw
`published` string, not by the parsed timestamp.  At this concrete input —
one well-formed source with two entries whose raw date strings order
oppositely to their parsed timestamps — the merged list has an adjacent
pair whose first publication timestamp is strictly smaller than the
second. -/
theorem mixed_entries_not_sorted_by_timestamp :
    Option.map pubdateSortedB (fetchEntries (-1) ["u"] ocMismatch).1
      = some false := by decide

/-- Claim C2 (amended): whenever a pipeline run completes with a merged
list, that list is the order-preserving image under `extractOne` of the
parsed entries sorted non-increasingly by the raw `published` date string
(code-point lexicographic); this agrees with timestamp order only when
the string order does. -/
theorem mixed_entries_sorted_by_published_string (num_keep : Int)
    (feeds : List String) (oc : String → SourceOutcome) (l : List Entry)
    (h : fetchEntriesParsed num_keep feeds oc = some l) :
    (fetchEntries num_keep feeds oc).1 = some (l.map extractOne)
    ∧ List.Sorted entryGE l := by
  constructor
  · show (fetchEntriesParsed num_keep feeds oc).map extract_meta
      = some (l.map extractOne)
    rw [h]
    simp [extract_meta_eq_map]
  · unfold fetchEntriesParsed sortByPublished at h
    split at h
    · exact (Option.some.inj h) ▸ List.sorted_insertionSort entryGE _
    · exact absurd h (by simp)

/-- Witness for the amended C2 at the concrete mismatch run, whose sort
puts the string-larger, timestamp-older entry first. -/
theorem mixed_entries_sorted_by_published_string_witness :
    (fetchEntries (-1) ["u"] ocMismatch).1
      = some ([entryStrHi, entryStrLo].map extractOne)
    ∧ List.Sorted entryGE [entryStrHi, entryStrLo] := by
  have h := mixed_entries_sorted_by_published_string (-1) ["u"] ocMismatch
    [entryStrHi, entryStrLo] (by decide)
  exact h

/-- Claim C3 is false on the code: the `mixed_entries` property re-runs the
pipeline whenever the cached list is empty (`len(self._mixed_entries) <
1`), so after a run in which every source failed — which populates the
cache with the empty list — the very next access runs the pipeline again
instead of returning the memoized empty result. -/
theorem empty_result_not_memoized :
    (getMixedEntries stateOneFeed ocAllFail).2.2 = true
    ∧ (getMixedEntries (getMixedEntries stateOneFeed ocAllFail).2.1
         ocAllFail).2.2 = true := by decide

/-- Claim C3 (amended): once a pipeline run has stored a nonempty merged
result, every later access returns that same in-memory list, leaves the
state unchanged, and does not re-run the pipeline; only an empty cached
list (the EMPTY marker, which an all-failed run reproduces) triggers a
run. -/
theorem mixed_entries_memoized_when_nonempty (s : FMState)
    (oc : String → SourceOutcome) (h : s.mixed_entries ≠ []) :
    getMixedEntries s oc = (some s.mixed_entries, s, false) := by
  have hlen : ¬ s.mixed_entries.length < 1 := by
    cases hm : s.mixed_entries with
    | nil => exact absurd hm h
    | cons a t => simp [hm]
  simp [getMixedEntries, hlen]

/-- Witness for the amended C3 at a concrete populated state. -/
theorem mixed_entries_memoized_when_nonempty_witness :
    getMixedEntries statePopulated ocAllFail
      = (some [extractOne trivEntry], statePopulated, false) := by
  have h := mixed_entries_memoized_when_nonempty statePopulated ocAllFail
    (by decide)
  exact h

/-- Claim C4: reassigning `feeds` or `num_keep` resets the cached merged
list to empty (so the next access runs the pipeline again), while
reassigning `title` changes neither cache; none of the three setters runs
`__fetch_entries` — they are pure state updates, and in particular the
error map from the previous run is left untouched. -/
theorem config_setters_invalidate (s : FMState) (v : List String) (n : Int)
    (t : String) (oc : String → SourceOutcome) :
    (set_feeds s v).mixed_entries = []
    ∧ (set_feeds s v).error_urls = s.error_urls
    ∧ (getMixedEntries (set_feeds s v) oc).2.2 = true
    ∧ (set_num_keep s n).mixed_entries = []
    ∧ (set_num_keep s n).num_keep = n
    ∧ (set_num_keep s n).error_urls = s.error_urls
    ∧ (getMixedEntries (set_num_keep s n) oc).2.2 = true
    ∧ (set_title s t).mixed_entries = s.mixed_entries
    ∧ (set_title s t).error_urls = s.error_urls := by
  simp [set_feeds, set_num_keep, set_title, getMixedEntries]

/-- Claim C5: for a source whose transport succeeded, a `ParseError` is
recorded exactly when the parser reports zero entries together with the
`bozo` flag; zero entries without `bozo` (a valid empty feed) is no error
and contributes zero entries. -/
theorem parse_error_iff_empty_and_bozo (num_keep : Int) (f : Feed) :
    (isParseError (processSource num_keep (.response f)) = true
       ↔ f.entries = [] ∧ f.bozo = true)
    ∧ (f.entries = [] → f.bozo = false →
       processSource num_keep (.response f) = .ok []) := by
  rcases f with ⟨b, bx, es, fa⟩
  cases es with
  | nil =>
    cases b with
    | false =>
      cases fa <;>
        simp [processSource, isParseError, selectNewest, pySlice, backfillAuthor]
    | true => simp [processSource, isParseError]
  | cons e t => cases b <;> simp [processSource, isParseError]

/-- Witness for C5: a concrete valid empty feed is not an error, and a
concrete empty `bozo` feed is recorded as a `ParseError`. -/
theorem parse_error_iff_empty_and_bozo_witness :
    processSource 3 (.response emptyOkFeed) = .ok []
    ∧ isParseError (processSource 3 (.response bozoEmptyFeed)) = true := by
  refine ⟨(parse_error_iff_empty_and_bozo 3 emptyOkFeed).2 rfl rfl, ?_⟩
  exact (parse_error_iff_empty_and_bozo 3 bozoEmptyFeed).1.mpr ⟨rfl, rfl⟩

/-- Claim C6 as stated is false on the code for `num_keep` values below the
sentinel: at `num_keep = -2` on a three-entry source, the slice
`f.entries[0:-2]` keeps the first entry, which is neither "the first
`num_keep` entries" (the empty list, reading the count as `toNat`) nor all
of the entries. -/
theorem select_counterexample_neg_two :
    ¬ (selectNewest (-2) [trivEntry, trivEntry, trivEntry]
         = [trivEntry, trivEntry, trivEntry].take (Int.toNat (-2)))
    ∧ ¬ (selectNewest (-2) [trivEntry, trivEntry, trivEntry]
         = [trivEntry, trivEntry, trivEntry]) := by
  refine ⟨?_, ?_⟩ <;> decide

/-- Claim C6 (amended, restricted to the sentinel and to non-negative keep
counts): `num_keep = -1` keeps the whole entry sequence in parser order,
and `num_keep ≥ 0` keeps exactly its first `num_keep` elements (all of
them when fewer are available) in parser order, with no re-sorting within
the source. -/
theorem select_newest_keep_spec (nk : Int) (E : List Entry) :
    (nk = -1 → selectNewest nk E = E)
    ∧ (0 ≤ nk → selectNewest nk E = E.take nk.toNat) := by
  constructor
  · intro h
    simp [selectNewest, h]
  · intro h
    have hne : nk ≠ -1 := by omega
    simp [selectNewest, hne, pySlice, h]

/-- Witness for the amended C6 at the sentinel and at a concrete positive
count smaller than the list length. -/
theorem select_newest_keep_spec_witness :
    selectNewest (-1) [entryStrHi, entryStrLo] = [entryStrHi, entryStrLo]
    ∧ selectNewest 2 [trivEntry, entryStrHi, entryStrLo]
        = [trivEntry, entryStrHi] := by
  refine ⟨(select_newest_keep_spec (-1) [entryStrHi, entryStrLo]).1 rfl, ?_⟩
  have h := (select_newest_keep_spec 2 [trivEntry, entryStrHi, entryStrLo]).2
    (by decide)
  exact h

/-- Claim C7: when the source exposes a feed-level author, each kept entry
lacking its own `author_detail` receives it and an entry that already has
one is never overwritten; when the feed has no author, the kept entries
are returned unchanged. -/
theorem author_backfill_nondestructive (a d : AuthorDetail) (e : Entry)
    (es : List Entry) :
    (e.author_detail = none →
       backfillEntry a e = { e with author_detail := some a })
    ∧ (e.author_detail = some d → backfillEntry a e = e)
    ∧ backfillAuthor none es = es
    ∧ backfillAuthor (some a) es = es.map (backfillEntry a) := by
  refine ⟨fun h => ?_, fun h => ?_, rfl, rfl⟩
  · simp [backfillEntry, h]
  · simp [backfillEntry, h]

/-- Witness for C7: a concrete author-less entry inherits the feed author
and a concrete authored entry keeps its own. -/
theorem author_backfill_nondestructive_witness :
    backfillEntry authFeed trivEntry
      = { trivEntry with author_detail := some authFeed }
    ∧ backfillEntry authFeed entryAuthored = entryAuthored := by
  refine ⟨(author_backfill_nondestructive authFeed authEntry trivEntry []).1 rfl, ?_⟩
  exact (author_backfill_nondestructive authFeed authEntry entryAuthored []).2.1 rfl

/-- Claim C8: normalization maps one parsed entry to a record whose title,
link and description are the entry's values (empty string when absent),
whose author email/name/link keys exist exactly when the entry has an
author, and whose `pubdate`/`updateddate` are the calendar tuples
collapsed to datetime instants with the seconds field clamped to at most
59 (so a leap-second 60 becomes 59). -/
theorem extract_meta_field_map (e : Entry) (d : AuthorDetail)
    (tp tu : TimeStruct) :
    (extractOne e).title = e.title.getD ""
    ∧ (extractOne e).link = e.link.getD ""
    ∧ (extractOne e).description = e.description.getD ""
    ∧ (e.author_detail = none →
       (extractOne e).author_email = none
       ∧ (extractOne e).author_name = none
       ∧ (extractOne e).author_link = none)
    ∧ (e.author_detail = some d →
       (extractOne e).author_email = some d.email
       ∧ (extractOne e).author_name = some d.name
       ∧ (extractOne e).author_link = some d.href)
    ∧ (e.published_parsed = some tp →
       (extractOne e).pubdate
         = some ⟨tp.year, tp.month, tp.day, tp.hour, tp.minute, min tp.second 59⟩)
    ∧ (e.published_parsed = none → (extractOne e).pubdate = none)
    ∧ (e.updated_parsed = some tu →
       (extractOne e).updateddate
         = some ⟨tu.year, tu.month, tu.day, tu.hour, tu.minute, min tu.second 59⟩)
    ∧ (e.updated_parsed = none → (extractOne e).updateddate = none) := by
  refine ⟨rfl, rfl, rfl, fun h => ?_, fun h => ?_, fun h => ?_, fun h => ?_,
    fun h => ?_, fun h => ?_⟩ <;>
      simp [extractOne, h, toDatetime]

/-- Witness for C8 at a concrete fully-populated entry whose published
seconds field is the leap-second value 60. -/
theorem extract_meta_field_map_witness :
    (extractOne fullEntry).pubdate = some ⟨2020, 1, 2, 3, 4, 59⟩
    ∧ (extractOne fullEntry).author_name = some (some "Bob")
    ∧ (extractOne fullEntry).updateddate = none
    ∧ (extractOne fullEntry).title = "T" := by
  have h := extract_meta_field_map fullEntry authEntry
    ⟨2020, 1, 2, 3, 4, 60⟩ ⟨0, 0, 0, 0, 0, 0⟩
  exact ⟨h.2.2.2.2.2.1 rfl, (h.2.2.2.2.1 rfl).2.1,
    h.2.2.2.2.2.2.2.2 rfl, h.1⟩

/-- Claim C9: `extract_meta` is total and pure — it is a computable
function defined on every entry list (optional fields included), it
produces exactly one output record per input entry, and it acts
element-wise in order (each output record depends only on its own input
entry; the input list is a value and is not mutated). -/
theorem extract_meta_total_and_elementwise (es : List Entry) :
    extract_meta es = es.map extractOne
    ∧ (extract_meta es).length = es.length := by
  have h := extract_meta_eq_map es
  exact ⟨h, by rw [h, List.length_map]⟩

/-- Claim C10: for `num_keep` strictly below the sentinel, the selection
step is the Python slice `f.entries[0:num_keep]`, keeping everything
except the last `|num_keep|` entries (and nothing when the source has at
most `|num_keep|` entries). -/
theorem select_negative_is_python_slice (nk : Int) (E : List Entry)
    (h : nk < -1) :
    selectNewest nk E = E.take (E.length - nk.natAbs) := by
  have h1 : nk ≠ -1 := by omega
  have h2 : ¬ 0 ≤ nk := by omega
  simp [selectNewest, h1, pySlice, h2]

/-- Witness for C10: at `num_keep = -2` on a concrete three-entry source,
all but the last two entries are kept. -/
theorem select_negative_is_python_slice_witness :
    selectNewest (-2) [entryStrHi, entryStrLo, trivEntry] = [entryStrHi] := by
  have h := select_negative_is_python_slice (-2)
    [entryStrHi, entryStrLo, trivEntry] (by decide)
  exact h

end Feedmixer
